import Mathlib

/-!
Verification of the thread-count assignment algorithm in
crates/bevy_core/src/task_pool_options.rs.

The Rust code sizes three task pools (IO, AsyncCompute, Compute) from a
clamped hardware core count.  The per-pool sizing function
TaskPoolThreadAssignmentPolicy::get_number_of_threads works on a 32-bit
float percentage; here an f32 value is embedded as either an exact
rational number or NaN (every numeric literal appearing in the source,
0.0, 0.25 and 1.0, is exactly representable in f32, and the idealisation
of f32 arithmetic by exact rational arithmetic is recorded in the
comments of the affected definitions).  usize is embedded as Nat;
usize saturating subtraction is Nat subtraction.  A Rust panic or abort
(the assert on a negative percent inside get_number_of_threads, and the
assert inside usize::clamp that the lower bound is at most the upper
bound) is embedded as the value none of an Option result.

Rational values are built with Rat.divInt and taken apart through num
and den instead of going through Rat.mul and Rat.add, which are opaque
to kernel reduction; bridging lemmas below prove the definitions equal
to the ordinary rational operations, so concrete runs can be checked by
the kernel while the algebraic reading stays available to proofs.
-/

/-- Model of an f32 value as this code uses one: either a numeric value,
idealised as an exact rational, or NaN.  (Infinities play no role in any
claim and are not modelled.) -/
inductive F32 where
  | num (q : ℚ)
  | nan
deriving DecidableEq

/-- Embedding of an integer-valued f32 literal or of a usize-to-f32 cast
with an exactly representable argument. -/
def F32.ofNat (n : ℕ) : F32 := F32.num (Rat.divInt n 1)

/-- Multiplication of two f32 values; NaN is absorbing.  On numeric
values this is exact rational multiplication, written on numerators and
denominators so that the kernel can evaluate it (see F32.mul_num). -/
def F32.mul : F32 → F32 → F32
  | F32.num a, F32.num b => F32.num (Rat.divInt (a.num * b.num) (a.den * b.den))
  | _, _ => F32.nan

/-- Embedding of the f32 comparison a <= b.  Every comparison with a NaN
operand is false, exactly as for Rust f32. -/
def F32.ble : F32 → F32 → Bool
  | F32.num a, F32.num b => !(Rat.blt b a)
  | _, _ => false

/-- Embedding of the f32 comparison a < b.  Every comparison with a NaN
operand is false, exactly as for Rust f32. -/
def F32.blt : F32 → F32 → Bool
  | F32.num a, F32.num b => Rat.blt a b
  | _, _ => false

/-- Rounding of a rational to the nearest integer with halves rounded
away from zero: the rounding mode of Rust f32::round.  Computed from the
numerator and denominator by integer division so that the kernel can
evaluate it; roundHalfAwayFromZero_eq_floor below gives the usual
floor characterisation on non-negative arguments. -/
def roundHalfAwayFromZero (q : ℚ) : ℤ :=
  if 0 ≤ q.num then (2 * q.num + q.den) / (2 * (q.den : ℤ))
  else -((2 * (-q.num) + q.den) / (2 * (q.den : ℤ)))

/-- Embedding of .round() as usize on an f32 value.  The Rust cast
saturates: negative values go to 0 (via Int.toNat) and NaN goes to 0.
The saturation of huge values at usize::MAX is not modelled: every value
this program casts is then immediately capped by min with a remaining
budget that fits in a usize, which makes the upper saturation
unobservable. -/
def F32.roundToUsize : F32 → ℕ
  | F32.num q => (roundHalfAwayFromZero q).toNat
  | F32.nan => 0

/-- Embedding of Rust usize::clamp (Ord::clamp): it asserts lo ≤ hi and
panics otherwise, which is modelled by none; on a well-formed interval
it restricts the value to the interval. -/
def rustClamp (x lo hi : ℕ) : Option ℕ :=
  if lo ≤ hi then some (if x < lo then lo else if hi < x then hi else x)
  else none

/-- Value of std::usize::MAX with usize taken at 64 bits. -/
def usizeMax : ℕ := 2 ^ 64 - 1

/-- Sizing rule of one task pool, from task_pool_options.rs. -/
structure TaskPoolThreadAssignmentPolicy where
  min_threads : ℕ
  max_threads : ℕ
  percent : F32
deriving DecidableEq

/-- Embedding of TaskPoolThreadAssignmentPolicy::get_number_of_threads.
The Rust function can abort in two places, both modelled by the result
none: the assert that percent is at least 0.0, and the assert inside
usize::clamp that min_threads ≤ max_threads.  Otherwise it rounds
percent times the total, caps that by the remaining budget, and then
clamps into [min_threads, max_threads], in that order. -/
def TaskPoolThreadAssignmentPolicy.get_number_of_threads
    (self : TaskPoolThreadAssignmentPolicy)
    (remaining_threads total_threads : ℕ) : Option ℕ :=
  if F32.ble (F32.ofNat 0) self.percent then
    let desired := (F32.mul (F32.ofNat total_threads) self.percent).roundToUsize
    let desired := min desired remaining_threads
    rustClamp desired self.min_threads self.max_threads
  else
    none

/-- Modelled from the spec: TaskPoolThreadPanicPolicy lives in the
external bevy_tasks crate, which is not part of the sources here; the
spec describes the failure policy as the closed set consisting of
propagate and catch-and-ignore.  It is configuration data only and no
claim depends on its meaning. -/
inductive TaskPoolThreadPanicPolicy where
  | Propagate
  | CatchAndIgnore
deriving DecidableEq

/-- Pairing of a sizing rule with a failure policy, from
task_pool_options.rs. -/
structure TaskPoolPolicies where
  assignment_policy : TaskPoolThreadAssignmentPolicy
  panic_policy : TaskPoolThreadPanicPolicy
deriving DecidableEq

/-- Top-level configuration of the three default task pools, from
task_pool_options.rs. -/
structure DefaultTaskPoolOptions where
  min_total_threads : ℕ
  max_total_threads : ℕ
  io : TaskPoolPolicies
  async_compute : TaskPoolPolicies
  compute : TaskPoolPolicies
deriving DecidableEq

/-- Embedding of the Default implementation of DefaultTaskPoolOptions:
total threads in [1, usize::MAX]; IO and AsyncCompute each target 25
percent of the cores within [1, 4]; Compute targets 100 percent of what
remains within [1, usize::MAX].  The f32 literals 0.25 and 1.0 are
exactly representable, so their rational embedding is exact. -/
def DefaultTaskPoolOptions.default : DefaultTaskPoolOptions where
  min_total_threads := 1
  max_total_threads := usizeMax
  io :=
    { assignment_policy :=
        { min_threads := 1, max_threads := 4, percent := F32.num (Rat.divInt 1 4) }
      panic_policy := TaskPoolThreadPanicPolicy.CatchAndIgnore }
  async_compute :=
    { assignment_policy :=
        { min_threads := 1, max_threads := 4, percent := F32.num (Rat.divInt 1 4) }
      panic_policy := TaskPoolThreadPanicPolicy.Propagate }
  compute :=
    { assignment_policy :=
        { min_threads := 1, max_threads := usizeMax, percent := F32.num (Rat.divInt 1 1) }
      panic_policy := TaskPoolThreadPanicPolicy.Propagate }

/-- Embedding of DefaultTaskPoolOptions::with_num_threads: the default
configuration with both global bounds pinned to the given count. -/
def DefaultTaskPoolOptions.with_num_threads (thread_count : ℕ) : DefaultTaskPoolOptions :=
  { DefaultTaskPoolOptions.default with
      min_total_threads := thread_count
      max_total_threads := thread_count }

/-- Observable outcome of one successful run of create_default_pools:
the clamped total, the size handed to each pool in order, and the value
of the remaining budget after each of the two budget updates the code
performs.  Registering each pool with its executor is an external side
effect outside this model. -/
structure PoolAllocation where
  total_threads : ℕ
  io_threads : ℕ
  remaining_after_io : ℕ
  async_compute_threads : ℕ
  remaining_after_async_compute : ℕ
  compute_threads : ℕ
deriving DecidableEq

/-- Embedding of DefaultTaskPoolOptions::create_default_pools.  The
probed logical core count is an external input and is passed as an
argument.  The core count is clamped by usize::clamp into the global
bounds (a panic there, or inside any per-pool sizing call, is modelled
by none).  The pools are then sized in the fixed source order IO,
AsyncCompute, Compute, each seeing the budget still remaining, and the
budget shrinks by usize::saturating_sub, which is Nat subtraction; the
code performs no budget update after the last (Compute) pool. -/
def DefaultTaskPoolOptions.create_default_pools
    (self : DefaultTaskPoolOptions) (logical_core_count : ℕ) : Option PoolAllocation :=
  match rustClamp logical_core_count self.min_total_threads self.max_total_threads with
  | none => none
  | some total_threads =>
    match self.io.assignment_policy.get_number_of_threads total_threads total_threads with
    | none => none
    | some io_threads =>
      let remaining1 := total_threads - io_threads
      match self.async_compute.assignment_policy.get_number_of_threads remaining1 total_threads with
      | none => none
      | some async_compute_threads =>
        let remaining2 := remaining1 - async_compute_threads
        match self.compute.assignment_policy.get_number_of_threads remaining2 total_threads with
        | none => none
        | some compute_threads =>
          some
            { total_threads := total_threads
              io_threads := io_threads
              remaining_after_io := remaining1
              async_compute_threads := async_compute_threads
              remaining_after_async_compute := remaining2
              compute_threads := compute_threads }

/-- Convenience: the desired thread count before any clamping, namely
round(total * percent) as computed by the code for a numeric percent
(see desiredThreads_eq for the direct arithmetic reading). -/
def desiredThreads (q : ℚ) (total_threads : ℕ) : ℕ :=
  (F32.mul (F32.ofNat total_threads) (F32.num q)).roundToUsize

theorem F32.mul_num (a b : ℚ) : F32.mul (F32.num a) (F32.num b) = F32.num (a * b) := by
  show F32.num _ = F32.num _
  congr 1
  rw [Rat.divInt_eq_div]
  push_cast
  conv_rhs => rw [← Rat.num_div_den a, ← Rat.num_div_den b]
  rw [div_mul_div_comm]

theorem F32.ofNat_eq (n : ℕ) : F32.ofNat n = F32.num (n : ℚ) := by
  show F32.num _ = F32.num _
  rw [Rat.divInt_one]
  norm_cast

theorem roundHalfAwayFromZero_eq_floor (q : ℚ) (hq : 0 ≤ q) :
    roundHalfAwayFromZero q = ⌊q + 1 / 2⌋ := by
  rw [roundHalfAwayFromZero, if_pos (by exact_mod_cast Rat.num_nonneg.2 hq)]
  have hden : (q.den : ℚ) ≠ 0 := by exact_mod_cast q.den_nz
  have key : (q.num : ℚ) = q * q.den := (div_eq_iff hden).1 (Rat.num_div_den q)
  have h2 : q + 1 / 2 = ((2 * q.num + q.den : ℤ) : ℚ) / ((2 * q.den : ℕ) : ℚ) := by
    push_cast
    field_simp
    rw [key]
    ring
  rw [h2, Rat.floor_intCast_div_natCast]
  norm_cast

theorem F32.ble_num_iff (a b : ℚ) : F32.ble (F32.num a) (F32.num b) = true ↔ a ≤ b := by
  show (!(Rat.blt b a)) = true ↔ a ≤ b
  rw [Bool.not_eq_true']
  exact Iff.rfl

theorem F32.ble_nan_right (a : F32) : F32.ble a F32.nan = false := by
  cases a <;> rfl

theorem rustClamp_eq_some_iff (x lo hi v : ℕ) :
    rustClamp x lo hi = some v ↔ lo ≤ hi ∧ v = max lo (min x hi) := by
  rw [rustClamp]
  by_cases h : lo ≤ hi
  · rw [if_pos h]
    simp only [Option.some_inj]
    constructor
    · rintro rfl
      refine ⟨h, ?_⟩
      split_ifs <;> omega
    · rintro ⟨-, rfl⟩
      split_ifs <;> omega
  · rw [if_neg h]
    simp only [reduceCtorEq, false_iff, not_and]
    intro h2
    omega

theorem roundToUsize_mul_num (t : ℕ) (q : ℚ) :
    (F32.mul (F32.ofNat t) (F32.num q)).roundToUsize = desiredThreads q t := rfl

theorem desiredThreads_eq (q : ℚ) (t : ℕ) :
    desiredThreads q t = (roundHalfAwayFromZero ((t : ℚ) * q)).toNat := by
  rw [desiredThreads, F32.ofNat_eq, F32.mul_num, F32.roundToUsize]

theorem get_eq_some_iff (p : TaskPoolThreadAssignmentPolicy) (r t v : ℕ) :
    p.get_number_of_threads r t = some v ↔
      F32.ble (F32.ofNat 0) p.percent = true ∧ p.min_threads ≤ p.max_threads ∧
      v = max p.min_threads
            (min (min ((F32.mul (F32.ofNat t) p.percent).roundToUsize) r) p.max_threads) := by
  simp only [TaskPoolThreadAssignmentPolicy.get_number_of_threads]
  by_cases hb : F32.ble (F32.ofNat 0) p.percent = true
  · rw [if_pos hb, rustClamp_eq_some_iff]
    simp [hb]
  · rw [if_neg hb]
    simp [hb]

theorem get_num_eq (q : ℚ) (lo hi r t : ℕ) (hq : 0 ≤ q) (hlh : lo ≤ hi) :
    TaskPoolThreadAssignmentPolicy.get_number_of_threads ⟨lo, hi, F32.num q⟩ r t
      = some (max lo (min (min (desiredThreads q t) r) hi)) := by
  rw [get_eq_some_iff]
  refine ⟨?_, hlh, ?_⟩
  · rw [F32.ofNat_eq, F32.ble_num_iff]
    exact_mod_cast hq
  · rw [roundToUsize_mul_num]

theorem get_le_remaining (p : TaskPoolThreadAssignmentPolicy) (r t v : ℕ)
    (h : p.get_number_of_threads r t = some v) (hmin : p.min_threads ≤ r) : v ≤ r := by
  rw [get_eq_some_iff] at h
  obtain ⟨-, -, rfl⟩ := h
  omega

theorem create_default_pools_some (opts : DefaultTaskPoolOptions) (c : ℕ)
    (alloc : PoolAllocation) (h : opts.create_default_pools c = some alloc) :
    rustClamp c opts.min_total_threads opts.max_total_threads = some alloc.total_threads ∧
    opts.io.assignment_policy.get_number_of_threads alloc.total_threads alloc.total_threads
      = some alloc.io_threads ∧
    alloc.remaining_after_io = alloc.total_threads - alloc.io_threads ∧
    opts.async_compute.assignment_policy.get_number_of_threads alloc.remaining_after_io
      alloc.total_threads = some alloc.async_compute_threads ∧
    alloc.remaining_after_async_compute
      = alloc.remaining_after_io - alloc.async_compute_threads ∧
    opts.compute.assignment_policy.get_number_of_threads alloc.remaining_after_async_compute
      alloc.total_threads = some alloc.compute_threads := by
  simp only [DefaultTaskPoolOptions.create_default_pools] at h
  cases h0 : rustClamp c opts.min_total_threads opts.max_total_threads with
  | none =>
    simp only [h0] at h
    exact Option.noConfusion h
  | some tt =>
    simp only [h0] at h
    cases h1 : opts.io.assignment_policy.get_number_of_threads tt tt with
    | none =>
      simp only [h1] at h
      exact Option.noConfusion h
    | some v1 =>
      simp only [h1] at h
      cases h2 : opts.async_compute.assignment_policy.get_number_of_threads (tt - v1) tt with
      | none =>
        simp only [h2] at h
        exact Option.noConfusion h
      | some v2 =>
        simp only [h2] at h
        cases h3 : opts.compute.assignment_policy.get_number_of_threads (tt - v1 - v2) tt with
        | none =>
          simp only [h3] at h
          exact Option.noConfusion h
        | some v3 =>
          simp only [h3, Option.some_inj] at h
          subst h
          exact ⟨rfl, h1, rfl, h2, rfl, h3⟩

theorem create_default_pools_mk (opts : DefaultTaskPoolOptions) (c t v1 v2 v3 : ℕ)
    (h0 : rustClamp c opts.min_total_threads opts.max_total_threads = some t)
    (h1 : opts.io.assignment_policy.get_number_of_threads t t = some v1)
    (h2 : opts.async_compute.assignment_policy.get_number_of_threads (t - v1) t = some v2)
    (h3 : opts.compute.assignment_policy.get_number_of_threads (t - v1 - v2) t = some v3) :
    opts.create_default_pools c
      = some ⟨t, v1, t - v1, v2, t - v1 - v2, v3⟩ := by
  simp only [DefaultTaskPoolOptions.create_default_pools, h0, h1, h2, h3]

/-- C1 counterexample: a policy with percent 0.0 (which passes the
percent ≥ 0.0 precondition) but min_threads = 2 above max_threads = 1
makes get_number_of_threads abort inside usize::clamp instead of
returning the clamped value the claim promises for every call with a
non-negative percent. -/
theorem c1_counterexample :
    F32.ble (F32.ofNat 0) (F32.num (Rat.divInt 0 1)) = true
    ∧ TaskPoolThreadAssignmentPolicy.get_number_of_threads
        ⟨2, 1, F32.num (Rat.divInt 0 1)⟩ 5 4 = none := by
  decide

/-- C1 (amended): for every call with a numeric percent ≥ 0.0 and
min_threads ≤ max_threads, the returned count is
clamp(min(round(total * percent), remaining), min_threads, max_threads):
the min-with-remaining cap is applied first and the [min, max] clamp
second, so the result can exceed remaining; round is
round-half-away-from-zero (equal to the floor of the value plus one half
on these non-negative inputs, as the second conjunct states).  When
max_threads < min_threads the call aborts instead (see C9). -/
theorem c1_thread_count_formula (q : ℚ) (lo hi r t : ℕ) (hq : 0 ≤ q) (hlh : lo ≤ hi) :
    TaskPoolThreadAssignmentPolicy.get_number_of_threads ⟨lo, hi, F32.num q⟩ r t
      = some (max lo (min (min (desiredThreads q t) r) hi))
    ∧ (desiredThreads q t : ℤ) = ⌊(t : ℚ) * q + 1 / 2⌋ := by
  have hprod : 0 ≤ (t : ℚ) * q := mul_nonneg (by positivity) hq
  refine ⟨get_num_eq q lo hi r t hq hlh, ?_⟩
  rw [desiredThreads_eq, roundHalfAwayFromZero_eq_floor _ hprod,
    Int.toNat_of_nonneg (Int.le_floor.2 (by push_cast; linarith))]

/-- C1 witness: the amended formula applied at percent one half,
bounds [1, 4], remaining 3 and total 5. -/
theorem c1_witness :
    TaskPoolThreadAssignmentPolicy.get_number_of_threads
        ⟨1, 4, F32.num (Rat.divInt 1 2)⟩ 3 5
      = some (max 1 (min (min (desiredThreads (Rat.divInt 1 2) 5) 3) 4))
    ∧ (desiredThreads (Rat.divInt 1 2) 5 : ℤ)
      = ⌊((5 : ℕ) : ℚ) * Rat.divInt 1 2 + 1 / 2⌋ :=
  c1_thread_count_formula (Rat.divInt 1 2) 1 4 3 5 (by decide) (by decide)

/-- C2: for every percent in [0, 1], min_threads ≤ max_threads and any
remaining and total, get_number_of_threads returns a value that is at
least min_threads (even when min_threads exceeds remaining) and at most
max_threads. -/
theorem c2_result_within_bounds (q : ℚ) (lo hi r t : ℕ)
    (h0 : 0 ≤ q) (h1 : q ≤ 1) (hlh : lo ≤ hi) :
    ∃ v, TaskPoolThreadAssignmentPolicy.get_number_of_threads ⟨lo, hi, F32.num q⟩ r t
        = some v ∧ lo ≤ v ∧ v ≤ hi :=
  ⟨_, get_num_eq q lo hi r t h0 hlh, by omega, by omega⟩

/-- C2 witness: with percent one quarter, bounds [1, 4] and a zero
budget the returned value still lies in [1, 4] (the floor wins over the
empty budget). -/
theorem c2_witness :
    ∃ v, TaskPoolThreadAssignmentPolicy.get_number_of_threads
        ⟨1, 4, F32.num (Rat.divInt 1 4)⟩ 0 0 = some v ∧ 1 ≤ v ∧ v ≤ 4 :=
  c2_result_within_bounds (Rat.divInt 1 4) 1 4 0 0 (by decide) (by decide) (by decide)

/-- C4: a negative percent makes get_number_of_threads abort on its
assert for every remaining, total, min_threads and max_threads. -/
theorem c4_negative_percent_aborts (q : ℚ) (lo hi r t : ℕ) (hq : q < 0) :
    TaskPoolThreadAssignmentPolicy.get_number_of_threads ⟨lo, hi, F32.num q⟩ r t = none := by
  have hble : F32.ble (F32.ofNat 0) (F32.num q) = false := by
    rw [F32.ofNat_eq, Bool.eq_false_iff]
    intro hc
    have h0q : ((0 : ℕ) : ℚ) ≤ q := (F32.ble_num_iff _ _).1 hc
    rw [Nat.cast_zero] at h0q
    exact absurd h0q (not_le.2 hq)
  simp only [TaskPoolThreadAssignmentPolicy.get_number_of_threads, hble,
    Bool.false_eq_true, if_false]

/-- C4 witness: percent minus one aborts at remaining 3, total 5,
bounds [1, 4]. -/
theorem c4_witness :
    TaskPoolThreadAssignmentPolicy.get_number_of_threads
      ⟨1, 4, F32.num (Rat.divInt (-1) 1)⟩ 3 5 = none :=
  c4_negative_percent_aborts (Rat.divInt (-1) 1) 1 4 3 5 (by decide)

/-- C5: with the default policies and a single-core budget the run
computes per-pool counts 1, 1, 1 in the fixed order IO, AsyncCompute,
Compute (three threads requested against a budget of one), with the
remaining budget 0 after the IO pool and still 0 after AsyncCompute. -/
theorem c5_single_core_scenario :
    DefaultTaskPoolOptions.default.create_default_pools 1
      = some { total_threads := 1, io_threads := 1, remaining_after_io := 0,
               async_compute_threads := 1, remaining_after_async_compute := 0,
               compute_threads := 1 } := by
  decide

/-- C3: on every successful run the remaining budget starts at the
clamped total and is updated by saturating subtraction after the IO and
AsyncCompute pools (the code performs no update after the last pool), so
the sequence of remaining values is non-increasing; the values live in
Nat because usize saturating subtraction never goes below 0, even when a
pool count exceeds the current budget. -/
theorem c3_remaining_budget_monotone (opts : DefaultTaskPoolOptions) (c : ℕ)
    (alloc : PoolAllocation) (h : opts.create_default_pools c = some alloc) :
    alloc.remaining_after_io = alloc.total_threads - alloc.io_threads
    ∧ alloc.remaining_after_async_compute
        = alloc.remaining_after_io - alloc.async_compute_threads
    ∧ alloc.remaining_after_io ≤ alloc.total_threads
    ∧ alloc.remaining_after_async_compute ≤ alloc.remaining_after_io := by
  obtain ⟨-, -, e1, -, e2, -⟩ := create_default_pools_some opts c alloc h
  exact ⟨e1, e2, by omega, by omega⟩

/-- C3 witness: the default configuration on an eight-core probe yields
the remaining-budget trace 8, 6, 4. -/
theorem c3_witness :
    (6 : ℕ) = 8 - 2 ∧ (4 : ℕ) = 6 - 2 ∧ (6 : ℕ) ≤ 8 ∧ (4 : ℕ) ≤ 6 :=
  c3_remaining_budget_monotone DefaultTaskPoolOptions.default 8 ⟨8, 2, 6, 2, 4, 4⟩
    (by decide)

/-- C6: every successful run computes its total as the probed core
count clamped into [min_total_threads, max_total_threads], and a
configuration built by with_num_threads pins both bounds so the run
succeeds with total exactly the requested count for every probed core
count. -/
theorem c6_total_clamp_and_forced :
    (∀ (opts : DefaultTaskPoolOptions) (c : ℕ) (alloc : PoolAllocation),
        opts.create_default_pools c = some alloc →
        alloc.total_threads = max opts.min_total_threads (min c opts.max_total_threads))
    ∧ (∀ thread_count c : ℕ, ∃ alloc : PoolAllocation,
        (DefaultTaskPoolOptions.with_num_threads thread_count).create_default_pools c
          = some alloc ∧ alloc.total_threads = thread_count) := by
  constructor
  · intro opts c alloc h
    obtain ⟨h0, -, -, -, -, -⟩ := create_default_pools_some opts c alloc h
    rw [rustClamp_eq_some_iff] at h0
    omega
  · intro N c
    have h0 : rustClamp c (DefaultTaskPoolOptions.with_num_threads N).min_total_threads
        (DefaultTaskPoolOptions.with_num_threads N).max_total_threads = some N := by
      show rustClamp c N N = some N
      rw [rustClamp_eq_some_iff]
      omega
    obtain ⟨v1, g1⟩ : ∃ v, (DefaultTaskPoolOptions.with_num_threads
        N).io.assignment_policy.get_number_of_threads N N = some v :=
      ⟨_, get_num_eq (Rat.divInt 1 4) 1 4 N N (by decide) (by decide)⟩
    obtain ⟨v2, g2⟩ : ∃ v, (DefaultTaskPoolOptions.with_num_threads
        N).async_compute.assignment_policy.get_number_of_threads (N - v1) N = some v :=
      ⟨_, get_num_eq (Rat.divInt 1 4) 1 4 (N - v1) N (by decide) (by decide)⟩
    obtain ⟨v3, g3⟩ : ∃ v, (DefaultTaskPoolOptions.with_num_threads
        N).compute.assignment_policy.get_number_of_threads (N - v1 - v2) N = some v :=
      ⟨_, get_num_eq (Rat.divInt 1 1) 1 usizeMax (N - v1 - v2) N (by decide) (by decide)⟩
    exact ⟨_, create_default_pools_mk (DefaultTaskPoolOptions.with_num_threads N) c
      N v1 v2 v3 h0 g1 g2 g3, rfl⟩

/-- C6 witness: with_num_threads 6 on a 48-core probe succeeds, its
total is 6, and 6 equals the clamp of 48 into [6, 6]. -/
theorem c6_witness :
    (⟨6, 2, 4, 2, 2, 2⟩ : PoolAllocation).total_threads
        = max (DefaultTaskPoolOptions.with_num_threads 6).min_total_threads
            (min 48 (DefaultTaskPoolOptions.with_num_threads 6).max_total_threads)
    ∧ ∃ alloc : PoolAllocation,
        (DefaultTaskPoolOptions.with_num_threads 6).create_default_pools 48 = some alloc
        ∧ alloc.total_threads = 6 :=
  ⟨c6_total_clamp_and_forced.1 (DefaultTaskPoolOptions.with_num_threads 6) 48
      ⟨6, 2, 4, 2, 2, 2⟩ (by decide),
    c6_total_clamp_and_forced.2 6 48⟩

/-- C7: a pool count can exceed the remaining budget only because the
min_threads floor raised it (the count equals min_threads, which
exceeded the remaining-capped desired value); consequently, when every
pool's min_threads fits inside the budget remaining at its step, the
three counts sum to at most the total. -/
theorem c7_overallocation_only_by_min_floor :
    (∀ (p : TaskPoolThreadAssignmentPolicy) (r t v : ℕ),
        p.get_number_of_threads r t = some v → r < v →
        v = p.min_threads
        ∧ min ((F32.mul (F32.ofNat t) p.percent).roundToUsize) r < p.min_threads)
    ∧ (∀ (opts : DefaultTaskPoolOptions) (c : ℕ) (alloc : PoolAllocation),
        opts.create_default_pools c = some alloc →
        opts.io.assignment_policy.min_threads ≤ alloc.total_threads →
        opts.async_compute.assignment_policy.min_threads ≤ alloc.remaining_after_io →
        opts.compute.assignment_policy.min_threads ≤ alloc.remaining_after_async_compute →
        alloc.io_threads + alloc.async_compute_threads + alloc.compute_threads
          ≤ alloc.total_threads) := by
  constructor
  · intro p r t v h hrv
    rw [get_eq_some_iff] at h
    obtain ⟨-, hlh, rfl⟩ := h
    constructor <;> omega
  · intro opts c alloc h hio hac hco
    obtain ⟨-, g1, e1, g2, e2, g3⟩ := create_default_pools_some opts c alloc h
    have l1 := get_le_remaining _ _ _ _ g1 hio
    have l2 := get_le_remaining _ _ _ _ g2 hac
    have l3 := get_le_remaining _ _ _ _ g3 hco
    omega

/-- C7 witness: a policy with floor 3 over an almost-empty budget
returns exactly its floor, and the default eight-core run (whose floors
all fit) sums to 2 + 2 + 4 = 8 ≤ 8. -/
theorem c7_witness :
    ((3 : ℕ) = 3
      ∧ min ((F32.mul (F32.ofNat 0) (F32.num (Rat.divInt 0 1))).roundToUsize) 1 < 3)
    ∧ (2 : ℕ) + 2 + 4 ≤ 8 :=
  ⟨c7_overallocation_only_by_min_floor.1 ⟨3, 5, F32.num (Rat.divInt 0 1)⟩ 1 0 3
      (by decide) (by decide),
    c7_overallocation_only_by_min_floor.2 DefaultTaskPoolOptions.default 8
      ⟨8, 2, 6, 2, 4, 4⟩ (by decide) (by decide) (by decide) (by decide)⟩

/-- C8: whenever the rounded desired count round(total * percent)
already fits under the remaining budget and inside
[min_threads, max_threads], get_number_of_threads returns it exactly. -/
theorem c8_unclamped_exact (q : ℚ) (lo hi r t : ℕ) (hq : 0 ≤ q)
    (h1 : desiredThreads q t ≤ r) (h2 : lo ≤ desiredThreads q t)
    (h3 : desiredThreads q t ≤ hi) :
    TaskPoolThreadAssignmentPolicy.get_number_of_threads ⟨lo, hi, F32.num q⟩ r t
      = some (desiredThreads q t) := by
  rw [get_num_eq q lo hi r t hq (le_trans h2 h3)]
  congr 1
  omega

/-- C8 witness: percent one quarter of a total of 8 rounds to 2, which
fits under remaining 6 and inside [1, 4], and 2 is returned exactly. -/
theorem c8_witness :
    TaskPoolThreadAssignmentPolicy.get_number_of_threads
        ⟨1, 4, F32.num (Rat.divInt 1 4)⟩ 6 8 = some (desiredThreads (Rat.divInt 1 4) 8) :=
  c8_unclamped_exact (Rat.divInt 1 4) 1 4 6 8 (by decide) (by decide) (by decide)
    (by decide)

/-- C9 counterexample: with percent one half (which passes the percent
precondition) and max_threads = 1 below min_threads = 3, the call
aborts inside usize::clamp, against the claim that evaluation does not
abort and the clamp merely works over an empty range. -/
theorem c9_counterexample :
    F32.ble (F32.ofNat 0) (F32.num (Rat.divInt 1 2)) = true
    ∧ TaskPoolThreadAssignmentPolicy.get_number_of_threads
        ⟨3, 1, F32.num (Rat.divInt 1 2)⟩ 4 8 = none := by
  decide

/-- C9 (amended): the constraint max_threads ≥ min_threads is in fact
enforced at evaluation time: for every call that passes the percent
precondition but has max_threads < min_threads, get_number_of_threads
aborts inside usize::clamp (modelled by none) instead of operating over
an empty range. -/
theorem c9_empty_range_aborts (p : TaskPoolThreadAssignmentPolicy) (r t : ℕ)
    (hp : F32.ble (F32.ofNat 0) p.percent = true)
    (hlh : p.max_threads < p.min_threads) :
    p.get_number_of_threads r t = none := by
  simp only [TaskPoolThreadAssignmentPolicy.get_number_of_threads, hp, if_true]
  rw [rustClamp, if_neg (by omega)]

/-- C9 witness: the amended statement applied at bounds [5, 2], percent
one quarter, remaining 7, total 9. -/
theorem c9_witness :
    TaskPoolThreadAssignmentPolicy.get_number_of_threads
      ⟨5, 2, F32.num (Rat.divInt 1 4)⟩ 7 9 = none :=
  c9_empty_range_aborts ⟨5, 2, F32.num (Rat.divInt 1 4)⟩ 7 9 (by decide) (by decide)

/-- C10: a NaN percent fails the percent ≥ 0.0 assert (every f32
comparison against NaN is false), so the call aborts for all arguments,
even though NaN is not a negative value: NaN < 0.0 is false as well, so
aborting is not equivalent to percent < 0.0. -/
theorem c10_nan_percent_aborts (lo hi r t : ℕ) :
    TaskPoolThreadAssignmentPolicy.get_number_of_threads ⟨lo, hi, F32.nan⟩ r t = none
    ∧ F32.blt F32.nan (F32.ofNat 0) = false := by
  refine ⟨?_, rfl⟩
  simp only [TaskPoolThreadAssignmentPolicy.get_number_of_threads, F32.ble_nan_right,
    Bool.false_eq_true, if_false]
